import Mathlib

/-!
Shallow embedding of the draftjs-to-markdown converter (src/js/index.ts and
src/js/common.ts).  JavaScript strings are modelled as `List Char`; a JS
string index access `s[i]`, which may yield `undefined`, is modelled as
`Option Char`.  Fallible host operations (`indexOf` returning `-1`) keep
their JS encoding (`Int`, with `-1` for "not found") where the source's
control flow depends on it.
-/

namespace DraftMd

/-- JS `pat` is a prefix of `s` (`String.prototype.startsWith`). -/
def strStartsWith : List Char → List Char → Bool
  | [], _ => true
  | _ :: _, [] => false
  | p :: ps, c :: cs => p = c && strStartsWith ps cs

/-- JS `String.prototype.indexOf`: first index where `pat` occurs in `s`,
`-1` when absent; the empty pattern is found at index 0. -/
def jsIndexOf (pat : List Char) (s : List Char) : Int :=
  if strStartsWith pat s then 0
  else
    match s with
    | [] => -1
    | _ :: t =>
      let r := jsIndexOf pat t
      if r < 0 then r else r + 1

/-- Tag of a `PreSection` / tagged `Section` (source string literals
`'ENTITY' | 'HASHTAG'`). -/
inductive SectionType where
  | ENTITY
  | HASHTAG
deriving DecidableEq, Repr

/-- src/js/index.ts `PreSection`: offset, length, optional entity key, tag. -/
structure PreSection where
  offset : Nat
  length : Nat
  key : Option Nat
  type : SectionType
deriving DecidableEq, Repr

/-- src/js/index.ts `HashConfig` (defaults trigger `#`, separator `' '`). -/
structure HashConfig where
  trigger : List Char
  separator : List Char
deriving DecidableEq, Repr

/-- The mutable locals of the `getHashtagRanges` loop in src/js/index.ts:
the shrinking working buffer `text`, the absolute-position counter, the
`startIndex` scratch variable and the accumulated `preSections`. -/
structure HashState where
  text : List Char
  counter : Nat
  startIndex : Int
  preSections : List PreSection
deriving DecidableEq, Repr

/-- Loop condition of `getHashtagRanges`: `text.length > 0 && startIndex >= 0`. -/
def hashtagLoopCond (s : HashState) : Bool :=
  s.text.length > 0 && s.startIndex ≥ 0

/-- One iteration of the `getHashtagRanges` loop body (src/js/index.ts,
lines 185-210), transcribed statement by statement. -/
def hashtagStep (cfg : HashConfig) (s : HashState) : HashState :=
  let s₁ :=
    if strStartsWith cfg.trigger s.text then
      -- `startIndex = 0; counter = 0; text = text.substr(trigger.length)`
      { s with text := s.text.drop cfg.trigger.length, startIndex := 0, counter := 0 }
    else
      let idx := jsIndexOf (cfg.separator ++ cfg.trigger) s.text
      if idx ≥ 0 then
        -- `text = text.substr(startIndex + (separator+trigger).length)`
        -- `counter += startIndex + separator.length`
        { s with
          text := s.text.drop (idx.toNat + (cfg.separator ++ cfg.trigger).length)
          counter := s.counter + idx.toNat + cfg.separator.length
          startIndex := idx }
      else
        { s with startIndex := idx }
  if s₁.startIndex ≥ 0 then
    let j := jsIndexOf cfg.separator s₁.text
    let endIndex := if j ≥ 0 then j.toNat else s₁.text.length
    let hashtagText := s₁.text.take endIndex
    let acc :=
      if hashtagText.length > 0 then
        s₁.preSections ++
          [{ offset := s₁.counter, length := hashtagText.length + cfg.trigger.length,
             key := none, type := SectionType.HASHTAG }]
      else s₁.preSections
    { s₁ with preSections := acc, counter := s₁.counter + cfg.trigger.length }
  else s₁

/-- Fuelled iteration of the `getHashtagRanges` loop.  The JS loop diverges
for an empty trigger; with a non-empty trigger every iteration either
strictly shrinks `text` or falsifies the loop condition, so
`text.length + 1` units of fuel reproduce the loop exactly. -/
def getHashtagRangesAux (cfg : HashConfig) : Nat → HashState → List PreSection
  | 0, s => s.preSections
  | fuel + 1, s =>
    if hashtagLoopCond s then getHashtagRangesAux cfg fuel (hashtagStep cfg s)
    else s.preSections

/-- src/js/index.ts `getHashtagRanges`. -/
def getHashtagRanges (text : List Char) (cfg : HashConfig) : List PreSection :=
  getHashtagRangesAux cfg (text.length + 1)
    { text := text, counter := 0, startIndex := 0, preSections := [] }

/-- Default hash configuration merged in `draftToMarkdown`:
trigger `#`, separator `' '`. -/
def defaultHashConfig : HashConfig :=
  { trigger := ("#").toList, separator := (" ").toList }

/-- src/js/index.ts `EntityRange`: `{offset, length, key}`. -/
structure EntityRange where
  offset : Nat
  length : Nat
  key : Nat
deriving DecidableEq, Repr

/-- src/js/index.ts `InlineStyleRange`: `{offset, length, style}`. -/
structure InlineStyleRange where
  offset : Nat
  length : Nat
  style : List Char
deriving DecidableEq, Repr

/-- src/js/index.ts `Block`.  The optional `data` field is omitted: the
only use of block data in the source is commented out. -/
structure Block where
  key : List Char
  text : List Char
  type : List Char
  depth : Nat
  entityRanges : List EntityRange
  inlineStyleRanges : List InlineStyleRange
deriving DecidableEq, Repr

/-- src/js/index.ts `Section`: a resolved interval with optional entity
key and tag.  The source field `end` is a Lean keyword, hence `stop`. -/
structure Section where
  start : Nat
  stop : Nat
  entityKey : Option Nat
  type : Option SectionType
deriving DecidableEq, Repr

/-- src/js/index.ts `Entity` (`type`, `mutability`, `data`).  The untyped
`data: Record<string, unknown>` is narrowed to the fields the renderer
reads (`url`, `alt`, `src`, `width`, `height`); an absent field is `none`,
which the JS template literals print as the string `undefined`. -/
structure EntityData where
  url : Option (List Char)
  alt : Option (List Char)
  src : Option (List Char)
  width : Option Int
  height : Option Int
deriving DecidableEq, Repr

structure Entity where
  type : List Char
  mutability : List Char
  data : EntityData
deriving DecidableEq, Repr

/-- `EntityMap` (`Record<string, Entity>`).  Modelled as a total function:
§7 of the spec declares a lookup of a missing key a caller-input error
whose outcome is out of scope, and no claim exercises it. -/
abbrev EntityMap : Type := Nat → Entity

/-- `CustomEntityTransform`: `(entity, text) => string | undefined`. -/
abbrev CustomEntityTransform : Type := Entity → List Char → Option (List Char)

/-- The recognized style names (source union `InlineStyleNames`);
the hyphen of the source name `CODE-BLOCK` becomes an underscore. -/
inductive StyleName where
  | SUBSCRIPT | SUPERSCRIPT | CODE | STRIKETHROUGH | UNDERLINE
  | ITALIC | BOLD | BLOCKQUOTE | CODE_BLOCK
  | COLOR | BGCOLOR | FONTSIZE | FONTFAMILY | RAWCSS
deriving DecidableEq, Repr

/-- The source string spelled by a `StyleName`. -/
def styleNameStr : StyleName → List Char
  | .SUBSCRIPT => ("SUBSCRIPT").toList
  | .SUPERSCRIPT => ("SUPERSCRIPT").toList
  | .CODE => ("CODE").toList
  | .STRIKETHROUGH => ("STRIKETHROUGH").toList
  | .UNDERLINE => ("UNDERLINE").toList
  | .ITALIC => ("ITALIC").toList
  | .BOLD => ("BOLD").toList
  | .BLOCKQUOTE => ("BLOCKQUOTE").toList
  | .CODE_BLOCK => ("CODE-BLOCK").toList
  | .COLOR => ("COLOR").toList
  | .BGCOLOR => ("BGCOLOR").toList
  | .FONTSIZE => ("FONTSIZE").toList
  | .FONTFAMILY => ("FONTFAMILY").toList
  | .RAWCSS => ("RAWCSS").toList

/-- `BOOLEAN_INLINE_STYLE_NAMES`, in source order. -/
def BOOLEAN_INLINE_STYLE_NAMES : List StyleName :=
  [.SUBSCRIPT, .SUPERSCRIPT, .CODE, .STRIKETHROUGH, .UNDERLINE, .ITALIC,
   .BOLD, .BLOCKQUOTE, .CODE_BLOCK]

/-- `STRING_INLINE_STYLE_NAMES`, in source order. -/
def STRING_INLINE_STYLE_NAMES : List StyleName :=
  [.COLOR, .BGCOLOR, .FONTSIZE, .FONTFAMILY, .RAWCSS]

/-- `INLINE_STYLE_NAMES = [...boolean, ...string]`. -/
def INLINE_STYLE_NAMES : List StyleName :=
  BOOLEAN_INLINE_STYLE_NAMES ++ STRING_INLINE_STYLE_NAMES

/-- A value stored in a style array slot: boolean-family styles store
`true`, string-family styles store a string. -/
inductive StyleVal where
  | bool (b : Bool)
  | str (s : List Char)
deriving DecidableEq, Repr

/-- src/js/index.ts `InlineStyles`: one dense array per style name plus a
`length` field.  A slot holds `none` for a JS array hole (`undefined`). -/
structure InlineStyles where
  COLOR : List (Option StyleVal)
  BGCOLOR : List (Option StyleVal)
  FONTSIZE : List (Option StyleVal)
  FONTFAMILY : List (Option StyleVal)
  SUBSCRIPT : List (Option StyleVal)
  SUPERSCRIPT : List (Option StyleVal)
  CODE : List (Option StyleVal)
  STRIKETHROUGH : List (Option StyleVal)
  UNDERLINE : List (Option StyleVal)
  ITALIC : List (Option StyleVal)
  BOLD : List (Option StyleVal)
  BLOCKQUOTE : List (Option StyleVal)
  CODE_BLOCK : List (Option StyleVal)
  RAWCSS : List (Option StyleVal)
  length : Nat
deriving DecidableEq, Repr

/-- `inlineStyles[key]`: the dense array held for a style name. -/
def styleArray (s : InlineStyles) : StyleName → List (Option StyleVal)
  | .COLOR => s.COLOR
  | .BGCOLOR => s.BGCOLOR
  | .FONTSIZE => s.FONTSIZE
  | .FONTFAMILY => s.FONTFAMILY
  | .SUBSCRIPT => s.SUBSCRIPT
  | .SUPERSCRIPT => s.SUPERSCRIPT
  | .CODE => s.CODE
  | .STRIKETHROUGH => s.STRIKETHROUGH
  | .UNDERLINE => s.UNDERLINE
  | .ITALIC => s.ITALIC
  | .BOLD => s.BOLD
  | .BLOCKQUOTE => s.BLOCKQUOTE
  | .CODE_BLOCK => s.CODE_BLOCK
  | .RAWCSS => s.RAWCSS

/-- JS array element assignment `arr[i] = v`: writing past the end of a JS
array extends it with holes. -/
def jsSet (l : List (Option StyleVal)) (i : Nat) (v : StyleVal) : List (Option StyleVal) :=
  if i < l.length then l.set i (some v)
  else l ++ List.replicate (i - l.length) none ++ [some v]

/-- `inlineStyles[name][i] = v` on the record. -/
def setStyle (s : InlineStyles) (name : StyleName) (i : Nat) (v : StyleVal) : InlineStyles :=
  match name with
  | .COLOR => { s with COLOR := jsSet s.COLOR i v }
  | .BGCOLOR => { s with BGCOLOR := jsSet s.BGCOLOR i v }
  | .FONTSIZE => { s with FONTSIZE := jsSet s.FONTSIZE i v }
  | .FONTFAMILY => { s with FONTFAMILY := jsSet s.FONTFAMILY i v }
  | .SUBSCRIPT => { s with SUBSCRIPT := jsSet s.SUBSCRIPT i v }
  | .SUPERSCRIPT => { s with SUPERSCRIPT := jsSet s.SUPERSCRIPT i v }
  | .CODE => { s with CODE := jsSet s.CODE i v }
  | .STRIKETHROUGH => { s with STRIKETHROUGH := jsSet s.STRIKETHROUGH i v }
  | .UNDERLINE => { s with UNDERLINE := jsSet s.UNDERLINE i v }
  | .ITALIC => { s with ITALIC := jsSet s.ITALIC i v }
  | .BOLD => { s with BOLD := jsSet s.BOLD i v }
  | .BLOCKQUOTE => { s with BLOCKQUOTE := jsSet s.BLOCKQUOTE i v }
  | .CODE_BLOCK => { s with CODE_BLOCK := jsSet s.CODE_BLOCK i v }
  | .RAWCSS => { s with RAWCSS := jsSet s.RAWCSS i v }

/-- The fresh `InlineStyles` record built at the top of
`getStyleArrayForBlock`: every array is `new Array(text.length)`
(all holes), `length` is `text.length`. -/
def initInlineStyles (n : Nat) : InlineStyles :=
  { COLOR := List.replicate n none
    BGCOLOR := List.replicate n none
    FONTSIZE := List.replicate n none
    FONTFAMILY := List.replicate n none
    SUBSCRIPT := List.replicate n none
    SUPERSCRIPT := List.replicate n none
    CODE := List.replicate n none
    STRIKETHROUGH := List.replicate n none
    UNDERLINE := List.replicate n none
    ITALIC := List.replicate n none
    BOLD := List.replicate n none
    BLOCKQUOTE := List.replicate n none
    CODE_BLOCK := List.replicate n none
    RAWCSS := List.replicate n none
    length := n }

/-- The boolean style name whose source spelling equals `style`, if any
(`BOOLEAN_INLINE_STYLE_NAMES.includes(style)`). -/
def booleanStyleNameOf (style : List Char) : Option StyleName :=
  BOOLEAN_INLINE_STYLE_NAMES.find? (fun n => styleNameStr n = style)

/-- The branch of `getStyleArrayForBlock` selected by a range's style
string: which array is written and with which value.  The final source
branch (a stringified-JSON CSS map stored as RAWCSS) is guarded by
`config.rawCssInlineStyles`, which this embedding fixes at its default
`false` — with it disabled the JS `&&` makes that branch unreachable and
the style string is silently ignored, as here.  No claim enables it. -/
def styleTarget (style : List Char) : Option (StyleName × StyleVal) :=
  if strStartsWith (("color-").toList) style then
    some (.COLOR, .str (style.drop 6))
  else if strStartsWith (("bgcolor-").toList) style then
    some (.BGCOLOR, .str (style.drop 8))
  else if strStartsWith (("fontsize-").toList) style then
    some (.FONTSIZE, .str (style.drop 9))
  else if strStartsWith (("fontfamily-").toList) style then
    some (.FONTFAMILY, .str (style.drop 11))
  else
    match booleanStyleNameOf style with
    | some name => some (name, .bool true)
    | none => none

/-- `TransformVal`: a style-token table entry, a single token used on both
sides or a `[left, right]` pair. -/
inductive TransformVal where
  | single (s : List Char)
  | pair (l r : List Char)
deriving DecidableEq, Repr

/-- src/js/index.ts `Config`.  `customStyleTransform` entries carry
`Option TransformVal` so that an explicit JS `undefined` entry (which the
object spread copies and which then suppresses wrapping) is expressible.
`emptyLineBeforeBlock`, `printBreakLineLiteral` and `blockTypesMapping`
only affect `getBlockMarkdown`/`draftToMarkdown`, outside every claim;
`rawCssInlineStyles` is fixed at its default `false` (see `styleTarget`). -/
structure Config where
  customStyleTransform : List (List Char × Option TransformVal)
deriving Repr

/-- The default configuration (all options absent). -/
def defaultConfig : Config :=
  { customStyleTransform := [] }

/-- src/js/index.ts `getStyleArrayForBlock`: for every inline style range,
for every index of its interval, set the selected array slot.  The branch
selection depends only on the range's style string, so it is hoisted out
of the per-index loop; the loop writes the same slot value at each index
exactly as the source does. -/
def getStyleArrayForBlock (block : Block) (_config : Config) : InlineStyles :=
  block.inlineStyleRanges.foldl
    (fun styles range =>
      match styleTarget range.style with
      | none => styles
      | some (name, v) =>
        (List.range' range.offset range.length).foldl
          (fun st i => setStyle st name i v) styles)
    (initInlineStyles block.text.length)

/-- src/js/index.ts `sameStyleAsPrevious`.  The JS function wraps the
comparison in try/catch; in this total embedding array reads out of range
yield `none` (JS `undefined`), whose comparison — like in JS — does not
throw, so the catch arm (`sameStyled = false`) has no reachable
counterpart.  The index is an `Int` as in the source (`number`). -/
def sameStyleAsPrevious (inlineStyles : InlineStyles) (matchKeys : List StyleName)
    (index : Int) : Bool :=
  if 0 < index ∧ index < (inlineStyles.length : Int) then
    matchKeys.all fun key =>
      (styleArray inlineStyles key).getD index.toNat none
        = (styleArray inlineStyles key).getD (index.toNat - 1) none
  else false

/-- `SingleInlineStyles`: the snapshot object built by `getStylesAtOffset`,
an insertion-ordered key/value list (JS object keys keep insertion order,
which `Object.keys` later reproduces). -/
abbrev SingleInlineStyles : Type := List (StyleName × StyleVal)

/-- JS truthiness of an array slot (`!!arr[offset]`): holes and the empty
string are falsy. -/
def truthyVal : Option StyleVal → Bool
  | none => false
  | some (.bool b) => b
  | some (.str s) => !s.isEmpty

/-- src/js/index.ts `getStylesAtOffset`: keep, in `INLINE_STYLE_NAMES`
order, each style whose slot at `offset` is truthy. -/
def getStylesAtOffset (inlineStyles : InlineStyles) (offset : Nat) : SingleInlineStyles :=
  INLINE_STYLE_NAMES.filterMap fun key =>
    let v := (styleArray inlineStyles key).getD offset none
    if truthyVal v then v.map (fun val => (key, val)) else none

/-- src/js/index.ts `StyleSection`.  `text` collects JS `text[i]` values,
hence `Option Char`; the source field `end` is a keyword, hence `stop`. -/
structure StyleSection where
  styles : SingleInlineStyles
  text : List (Option Char)
  start : Nat
  stop : Nat
deriving DecidableEq, Repr

/-- The `for (let i = start; i < end; i += 1)` loop of `getStyleSections`,
with the accumulated sections kept most-recent-first so that the source's
mutation of the last element is a head update.  Only `i === start` pushes
a section; a style change at `i > start` falls through — the source has no
`else` arm for it. -/
def styleSectionsLoop (text : List Char) (inlineStyles : InlineStyles)
    (matchKeys : List StyleName) (start : Nat) :
    Nat → Nat → List StyleSection → List StyleSection
  | 0, _, acc => acc.reverse
  | count + 1, i, acc =>
    let acc' :=
      if i = start then
        { styles := getStylesAtOffset inlineStyles i, text := [text[i]?],
          start := i, stop := i + 1 } :: acc
      else if sameStyleAsPrevious inlineStyles matchKeys (i : Int) then
        match acc with
        | last :: rest =>
          { last with text := last.text ++ [text[i]?], stop := i + 1 } :: rest
        | [] => acc
        -- the `[]` arm is unreachable: the first iteration has `i = start`
      else acc
    styleSectionsLoop text inlineStyles matchKeys start count (i + 1) acc'

/-- src/js/index.ts `getStyleSections`. -/
def getStyleSections (block : Block) (matchKeys : List StyleName)
    (start stop : Nat) (config : Config) : List StyleSection :=
  if block.text.length > 0 then
    let inlineStyles := getStyleArrayForBlock block config
    styleSectionsLoop block.text inlineStyles matchKeys start (stop - start) start []
  else []

/-- The per-character replacement of `getSectionText`.  `none` models a JS
`undefined` array element, which `Array.prototype.join` renders as the
empty string. -/
def inlineEscapeChar : Option Char → List Char
  | none => []
  | some c =>
    if c = '\n' then ("\\s\\s\n").toList
    else if c = '&' then ("&amp;").toList
    else if c = '<' then ("&lt;").toList
    else if c = '>' then ("&gt;").toList
    else [c]

/-- src/js/index.ts `getSectionText`: map each collected character through
the replacement table and join. -/
def getSectionText (text : List (Option Char)) : List Char :=
  (text.map inlineEscapeChar).flatten

/-- The default `styleTransform` table built in `getSectionMarkdown`. -/
def defaultStyleTransform (style : List Char) : Option TransformVal :=
  if style = ("BOLD").toList then some (.single (("**").toList))
  else if style = ("ITALIC").toList then some (.single (("*").toList))
  else if style = ("UNDERLINE").toList then some (.single (("__").toList))
  else if style = ("STRIKETHROUGH").toList then some (.single (("~~").toList))
  else if style = ("CODE").toList then some (.single (("`").toList))
  else if style = ("CODE-BLOCK").toList then
    some (.pair (("```\n").toList) (("\n```").toList))
  else if style = ("BLOCKQUOTE").toList then some (.pair (("> ").toList) [])
  else if style = ("SUPERSCRIPT").toList then
    some (.pair (("<sup>").toList) (("</sup>").toList))
  else if style = ("SUBSCRIPT").toList then
    some (.pair (("<sub>").toList) (("</sub>").toList))
  else none

/-- Association-list lookup used for the object spread
`{...defaults, ...config.customStyleTransform}`: a key present in the
custom table wins, even when its value is an explicit `undefined`. -/
def lookupCustom (l : List (List Char × Option TransformVal)) (style : List Char) :
    Option (Option TransformVal) :=
  match l with
  | [] => none
  | (k, v) :: rest => if k = style then some v else lookupCustom rest style

/-- The merged style-token table of `getSectionMarkdown`. -/
def mergedStyleTransform (config : Config) (style : List Char) : Option TransformVal :=
  match lookupCustom config.customStyleTransform style with
  | some v => v
  | none => defaultStyleTransform style

/-- src/js/index.ts `addInlineStyleMarkdown`: wrap `content` in the token
pair looked up for `style`; a missing or undefined entry leaves the
content unchanged. -/
def addInlineStyleMarkdown (style : List Char) (content : List Char)
    (styleTransform : List Char → Option TransformVal) : List Char :=
  match styleTransform style with
  | none => content
  | some (.single s) => s ++ content ++ s
  | some (.pair l r) => l ++ content ++ r

/-- src/js/index.ts `getStyleTagSectionMarkdown`: reduce the active style
names over the text. -/
def getStyleTagSectionMarkdown (styles : List StyleName) (text : List Char)
    (styleTransform : List Char → Option TransformVal) : List Char :=
  styles.foldl
    (fun acc style => addInlineStyleMarkdown (styleNameStr style) acc styleTransform)
    text

/-- `styles[styleName]` on the snapshot object. -/
def lookupStyle (styles : SingleInlineStyles) (name : StyleName) : Option StyleVal :=
  match styles with
  | [] => none
  | (k, v) :: rest => if k = name then some v else lookupStyle rest name

/-- JS template interpolation of a stored style value. -/
def styleValStr : StyleVal → List Char
  | .str s => s
  | .bool b => if b then ("true").toList else ("false").toList

/-- src/js/index.ts `addStylePropertyMarkdown`: collect the string-family
styles into one CSS declaration list plus data attributes; if the
declaration list is empty or all semicolons (the `/^(?:;+|)$/` test),
return the escaped text unwrapped, else wrap it in one span. -/
def addStylePropertyMarkdown (styleSection : StyleSection) : List Char :=
  let content := getSectionText styleSection.text
  if styleSection.styles.isEmpty then content
  else
    let step := fun (acc : List Char × List Char) (styleName : StyleName) =>
      match lookupStyle styleSection.styles styleName with
      | none => acc
      | some v =>
        match styleName with
        | .COLOR =>
          (acc.1 ++ ("color: ").toList ++ styleValStr v ++ [';'],
           acc.2 ++ (" data-color=\"true\"").toList)
        | .BGCOLOR =>
          (acc.1 ++ ("background-color: ").toList ++ styleValStr v ++ [';'],
           acc.2 ++ (" data-bgcolor=\"true\"").toList)
        | .FONTSIZE =>
          (acc.1 ++ ("font-size: ").toList ++ styleValStr v ++ ("px;").toList,
           acc.2 ++ (" data-fontsize=\"true\"").toList)
        | .FONTFAMILY =>
          (acc.1 ++ ("font-family: ").toList ++ styleValStr v ++ [';'],
           acc.2 ++ (" data-fontfamily=\"true\"").toList)
        | .RAWCSS =>
          (acc.1 ++ styleValStr v, acc.2 ++ (" data-rawcss=\"true\"").toList)
        | _ => acc
        -- the switch of the source has cases only for the five string
        -- names, the only ones the loop iterates over
    let (styleString, extra) := STRING_INLINE_STYLE_NAMES.foldl step ([], [])
    if styleString.all (· = ';') then content
    else
      ("<span style=\"").toList ++ styleString ++ ("\"").toList ++ extra
        ++ ['>'] ++ content ++ ("</span>").toList

/-- Stable insertion into a list sorted ascending by `offset`: the new
element goes before the first element with an offset `≥` its own, so
among equal offsets earlier input elements stay first — the behaviour of
the stable JS `Array.prototype.sort` with comparator
`(s1, s2) => s1.offset - s2.offset`. -/
def insertByOffset (x : PreSection) : List PreSection → List PreSection
  | [] => [x]
  | y :: ys => if y.offset < x.offset then y :: insertByOffset x ys else x :: y :: ys

/-- Stable sort ascending by `offset`. -/
def sortByOffset (l : List PreSection) : List PreSection :=
  l.foldr insertByOffset []

/-- src/js/index.ts `getSections`: entity ranges become tagged
pre-sections, hashtag ranges are appended, the whole list is sorted by
offset, then walked emitting untagged gap sections between tagged ones.
The gap emitted before a range ends at `r.offset - 1`, exactly as the
source writes it. -/
def getSections (block : Block) (hashConfig : HashConfig) : List Section :=
  let sectionRanges : List PreSection :=
    block.entityRanges.map (fun r =>
      { offset := r.offset, length := r.length, key := some r.key,
        type := SectionType.ENTITY })
      ++ getHashtagRanges block.text hashConfig
  let sorted := sortByOffset sectionRanges
  let (sections, lastOffset) :=
    sorted.foldl
      (fun (acc : List Section × Nat) r =>
        let (sections, lastOffset) := acc
        let sections :=
          if r.offset > lastOffset then
            sections ++ [{ start := lastOffset, stop := r.offset - 1,
                           entityKey := none, type := none }]
          else sections
        (sections ++ [{ start := r.offset, stop := r.offset + r.length,
                        entityKey := r.key, type := some r.type }],
         r.offset + r.length))
      ([], 0)
  if lastOffset < block.text.length then
    sections ++ [{ start := lastOffset, stop := block.text.length,
                   entityKey := none, type := none }]
  else sections

/-- JS template interpolation of a possibly-undefined string field. -/
def jsStr : Option (List Char) → List Char
  | some s => s
  | none => ("undefined").toList

/-- JS template interpolation of a possibly-undefined number field. -/
def jsNum : Option Int → List Char
  | some n => (toString n).toList
  | none => ("undefined").toList

/-- The switch of `getEntityMarkdown` over `entity.type`. -/
def builtinEntityMarkdown (entity : Entity) (text : List Char) : List Char :=
  if entity.type = ("LINK").toList ∨ entity.type = ("MENTION").toList then
    ("[").toList ++ text ++ ("](").toList ++ jsStr entity.data.url ++ [')']
  else if entity.type = ("IMAGE").toList then
    -- `entity.data.alt as string || ''`: a falsy alt becomes the empty string
    let alt :=
      match entity.data.alt with
      | some s => s
      | none => []
    ("![").toList ++ alt ++ ("](").toList ++ jsStr entity.data.src ++ [')']
  else if entity.type = ("EMBEDDED_LINK").toList then
    ("<iframe width=\"").toList ++ jsNum entity.data.width
      ++ ("\" height=\"").toList ++ jsNum entity.data.height
      ++ ("\" src=\"").toList ++ jsStr entity.data.src
      ++ ("\" frameBorder=\"0\" allowFullScreen />").toList
  else text

/-- src/js/index.ts `getEntityMarkdown`: a supplied custom transform whose
result is defined wins; otherwise the built-in switch on the entity type.
The JS guard `typeof customEntityTransform === 'function'` is the `some`
case of the optional transform. -/
def getEntityMarkdown (entity : Entity) (text : List Char)
    (customEntityTransform : Option CustomEntityTransform) : List Char :=
  match customEntityTransform with
  | some f =>
    match f entity text with
    | some html => html
    | none => builtinEntityMarkdown entity text
  | none => builtinEntityMarkdown entity text

/-- The whitespace class of JS `String.prototype.trim`, restricted to its
common members (the full class also holds rarer Unicode space
separators, none of which any claim uses). -/
def jsWhitespace (c : Char) : Bool :=
  c = ' ' || c = '\t' || c = '\n' || c = '\r' || c = '\x0b' || c = '\x0c'
    || c = ' '

/-- JS `str.trim()`. -/
def jsTrim (s : List Char) : List Char :=
  ((s.dropWhile jsWhitespace).reverse.dropWhile jsWhitespace).reverse

/-- src/js/common.ts `isEmptyString` for an actual string argument (the
`undefined`/`null` arms cannot arise here: `Block.text` is a string). -/
def isEmptyString (str : List Char) : Bool :=
  str.isEmpty || (jsTrim str).isEmpty

/-- src/js/index.ts `isAtomicBlock`:
`block.entityRanges.length > 0 && isEmptyString(block.text)`. -/
def isAtomicBlock (block : Block) : Bool :=
  decide (block.entityRanges.length > 0) && isEmptyString block.text

/-- src/js/index.ts `getSectionMarkdown`: render the boolean-family runs of
the section, each wrapping the concatenated string-family runs inside it,
then apply the entity or hashtag wrapper.  The source's
`entitySectionMarkdown` array receives a single push before being joined,
so it is the plain string here. -/
def getSectionMarkdown (block : Block) (entityMap : EntityMap) (sec : Section)
    (customEntityTransform : Option CustomEntityTransform) (config : Config) :
    List Char :=
  let styleTransform := mergedStyleTransform config
  let styleSections :=
    getStyleSections block BOOLEAN_INLINE_STYLE_NAMES sec.start sec.stop config
  let styleSectionText :=
    styleSections.foldl
      (fun acc styleSection =>
        let stylePropertySections :=
          getStyleSections block STRING_INLINE_STYLE_NAMES
            styleSection.start styleSection.stop config
        let stylePropertySectionText :=
          stylePropertySections.foldl
            (fun a sps => a ++ addStylePropertyMarkdown sps) []
        acc ++ getStyleTagSectionMarkdown (styleSection.styles.map Prod.fst)
          stylePropertySectionText styleTransform)
      []
  let sectionText := styleSectionText
  match sec.type with
  | some .ENTITY =>
    match sec.entityKey with
    | some key => getEntityMarkdown (entityMap key) sectionText customEntityTransform
    | none => sectionText
  | some .HASHTAG =>
    ("[").toList ++ sectionText ++ ("](").toList ++ sectionText ++ [')']
  | none => sectionText

/-- JS `str.replace(' ', '&nbsp;')`: replace the first space anywhere. -/
def replaceFirstSpace : List Char → List Char
  | [] => []
  | c :: cs => if c = ' ' then ("&nbsp;").toList ++ cs else c :: replaceFirstSpace cs

/-- The loop of `trimLeadingZeros`: `i` walks the original text while its
character at `i` is a space (`sectionText[i] === ' '`; an out-of-range
read is `undefined` and stops the loop, exactly as reaching the end of
the suffix does here), replacing the first space of the working copy each
time.  The recursion is over the still-unvisited suffix of the original
text, whose head is `sectionText[i]`; the source's loop bound
`i < replacedText.length` is kept as the first conjunct. -/
def trimLeadingZerosGo (replaced : List Char) (i : Nat) : List Char → List Char
  | [] => replaced
  | c :: rest =>
    if i < replaced.length ∧ c = ' ' then
      trimLeadingZerosGo (replaceFirstSpace replaced) (i + 1) rest
    else replaced

/-- src/js/index.ts `trimLeadingZeros`. -/
def trimLeadingZeros (sectionText : List Char) : List Char :=
  if sectionText.isEmpty then sectionText
  else trimLeadingZerosGo sectionText 0 sectionText

/-- The loop of `trimTrailingZeros`, counting down.  The argument is the
source index plus one, so `0` is the exhausted loop (`i = -1`). -/
def trimTrailingZerosGo (replaced : List Char) : Nat → List Char
  | 0 => replaced
  | i + 1 =>
    if replaced[i]? = some ' ' then
      trimTrailingZerosGo (replaced.take i ++ ("&nbsp;").toList ++ replaced.drop (i + 1)) i
    else replaced

/-- src/js/index.ts `trimTrailingZeros`. -/
def trimTrailingZeros (sectionText : List Char) : List Char :=
  if sectionText.isEmpty then sectionText
  else trimTrailingZerosGo sectionText sectionText.length

/-- src/js/index.ts `getBlockContentMarkdown`: an atomic block renders its
first entity with an empty inner string; otherwise the block is split
into sections, each rendered and — first section only — passed through
`trimLeadingZeros`, else — last section only — through
`trimTrailingZeros`, then joined. -/
def getBlockContentMarkdown (block : Block) (entityMap : EntityMap)
    (hashConfig : HashConfig) (customEntityTransform : Option CustomEntityTransform)
    (config : Config) : List Char :=
  if isAtomicBlock block then
    match block.entityRanges with
    | r :: _ => getEntityMarkdown (entityMap r.key) [] customEntityTransform
    | [] => []
    -- the `[]` arm is unreachable: `isAtomicBlock` requires an entity range
  else
    let entitySections := getSections block hashConfig
    (entitySections.enum.map (fun (p : Nat × Section) =>
      let (index, sec) := p
      let sectionText :=
        getSectionMarkdown block entityMap sec customEntityTransform config
      if index = 0 then trimLeadingZeros sectionText
      else if index = entitySections.length - 1 then trimTrailingZeros sectionText
      else sectionText)).flatten

/-! ## Concrete inputs for the claims -/

/-- A placeholder entity for blocks that reference no entity. -/
def dummyEntity : Entity :=
  { type := [], mutability := [],
    data := { url := none, alt := none, src := none, width := none, height := none } }

/-- Block `"xy"` with a single entity range `[1, 2)`. -/
def blockC1 : Block :=
  { key := [], text := ("xy").toList, type := ("unstyled").toList, depth := 0,
    entityRanges := [{ offset := 1, length := 1, key := 0 }],
    inlineStyleRanges := [] }

/-- Does the section's interval `[start, stop)` contain index `i`? -/
def coversIdx (sec : Section) (i : Nat) : Bool :=
  decide (sec.start ≤ i ∧ i < sec.stop)

/-- Block `"ab"` with `color-red` over `[0, 1)`. -/
def blockC2a : Block :=
  { key := [], text := ("ab").toList, type := ("unstyled").toList, depth := 0,
    entityRanges := [],
    inlineStyleRanges := [{ offset := 0, length := 1, style := ("color-red").toList }] }

/-- Block `"abc"` with `color-red` over `[0, 1)`. -/
def blockC2b : Block :=
  { key := [], text := ("abc").toList, type := ("unstyled").toList, depth := 0,
    entityRanges := [],
    inlineStyleRanges := [{ offset := 0, length := 1, style := ("color-red").toList }] }

/-- Block `"ab"` with BOLD over `[0, 2)` and `color-red` over `[0, 1)`. -/
def blockC3 : Block :=
  { key := [], text := ("ab").toList, type := ("unstyled").toList, depth := 0,
    entityRanges := [],
    inlineStyleRanges :=
      [{ offset := 0, length := 2, style := ("BOLD").toList },
       { offset := 0, length := 1, style := ("color-red").toList }] }

/-- Block whose text begins and ends with two spaces, no ranges. -/
def blockC4 : Block :=
  { key := [], text := ("  ab  ").toList, type := ("unstyled").toList, depth := 0,
    entityRanges := [], inlineStyleRanges := [] }

/-- Block `"#a b  "`: a hashtag section followed by a gap section that
ends in two spaces, so the trailing-escape branch acts on a section that
is not also the first. -/
def blockC4b : Block :=
  { key := [], text := ("#a b  ").toList, type := ("unstyled").toList, depth := 0,
    entityRanges := [], inlineStyleRanges := [] }

/-! ## Claims -/

/-- C1: the claim says the Sections of `getSections` tile
`[0, text.length)` with every character in exactly one Section.  The code
emits the gap before a tagged range as `[lastOffset, r.offset - 1)`
(src/js/index.ts line 241), so the character just before each tagged
range lies in no Section: for block text `"xy"` with an entity range over
`[1, 2)` the result is the empty gap `[0, 0)` followed by `[1, 2)`, and
index 0 (the character `x`) is covered by no Section — it is dropped from
the rendered output. -/
theorem claim1_getSections_gap_off_by_one :
    getSections blockC1 defaultHashConfig =
      [{ start := 0, stop := 0, entityKey := none, type := none },
       { start := 1, stop := 2, entityKey := some 0, type := some SectionType.ENTITY }]
    ∧ (getSections blockC1 defaultHashConfig).countP (fun sec => coversIdx sec 0) = 0 := by
  constructor
  · rfl
  · rfl

/-- C2: the claim says the StyleSections of `getStyleSections` cover the
span, are maximal and are internally uniform.  The loop of the code
(src/js/index.ts lines 375-387) has no arm for a style change at
`i > start`, so such a character is silently skipped: over `"ab"` with
`color-red` on `[0, 1)` and the string family the whole span `[0, 2)`
yields the single section `[0, 1)` — index 1 uncovered; over `"abc"`
(same range) index 2 compares equal to index 1 and is appended to the
run begun at index 0, yielding one section `[0, 3)` whose text skips
`b` and whose characters do not share the same COLOR value. -/
theorem claim2_getStyleSections_skips_changed_styles :
    getStyleSections blockC2a STRING_INLINE_STYLE_NAMES 0 2 defaultConfig =
      [{ styles := [(StyleName.COLOR, StyleVal.str (("red").toList))],
         text := [some 'a'], start := 0, stop := 1 }]
    ∧ getStyleSections blockC2b STRING_INLINE_STYLE_NAMES 0 3 defaultConfig =
      [{ styles := [(StyleName.COLOR, StyleVal.str (("red").toList))],
         text := [some 'a', some 'c'], start := 0, stop := 3 }] := by
  constructor
  · rfl
  · rfl

/-- C3: the claim expects
`**<span style="color: red;" data-color="true">a</span>b**` for `"ab"`
with BOLD over `[0, 2)` and `color-red` over `[0, 1)`.  Because
`getStyleSections` drops the style-changing character `b` (see C2), the
code renders `**<span style="color: red;" data-color="true">a</span>**`
instead. -/
theorem claim3_style_nesting_output :
    getBlockContentMarkdown blockC3 (fun _ => dummyEntity) defaultHashConfig
        none defaultConfig =
      ("**<span style=\"color: red;\" data-color=\"true\">a</span>**").toList
    ∧ getBlockContentMarkdown blockC3 (fun _ => dummyEntity) defaultHashConfig
        none defaultConfig ≠
      ("**<span style=\"color: red;\" data-color=\"true\">a</span>b**").toList := by
  constructor
  · rfl
  · decide

/-- C4 counterexample: for the single-section block `"  ab  "` the claim
expects both the leading and the trailing space pair to become
`&nbsp;&nbsp;`.  The code guards the trailing branch with `else if`
(src/js/index.ts lines 622-628), so a section that is first and last gets
only the leading escape. -/
theorem claim4_counterexample :
    getBlockContentMarkdown blockC4 (fun _ => dummyEntity) defaultHashConfig
        none defaultConfig ≠
      ("&nbsp;&nbsp;ab&nbsp;&nbsp;").toList := by
  decide

/-- C4 amended: leading-whitespace escaping is applied to the first
section's output, and trailing-whitespace escaping to the last section's
output only when that section is not also the first (the `else if` makes
the branches exclusive, first wins).  For the single-section block
`"  ab  "` only the leading pair becomes `&nbsp;&nbsp;`, the trailing
pair staying two spaces; for `"#a b  "`, whose last section is not the
first, the trailing pair does become `&nbsp;&nbsp;`. -/
theorem claim4_whitespace_escaping_amended :
    getBlockContentMarkdown blockC4 (fun _ => dummyEntity) defaultHashConfig
        none defaultConfig = ("&nbsp;&nbsp;ab  ").toList
    ∧ getBlockContentMarkdown blockC4b (fun _ => dummyEntity) defaultHashConfig
        none defaultConfig = ("[#a](#a) b&nbsp;&nbsp;").toList := by
  constructor
  · rfl
  · rfl

/-- C5: for the text `"hello #world foo"` with trigger `#` and separator
`' '`, `getHashtagRanges` returns exactly one hashtag PreSection with
offset 6 and length 6, covering `"#world"`. -/
theorem claim5_hashtag_example :
    getHashtagRanges (("hello #world foo").toList) defaultHashConfig =
      [{ offset := 6, length := 6, key := none, type := SectionType.HASHTAG }] := by
  rfl

/-- C6 counterexample: the claim reads the newline image as two spaces
followed by a newline.  The code returns the JS literal `'\\s\\s\n'`
(src/js/index.ts line 400), i.e. backslash, `s`, backslash, `s`, newline
— not two spaces. -/
theorem claim6_counterexample :
    getSectionText [some '\n'] ≠ ("  \n").toList := by
  decide

/-- The per-character escape table as the amended claim states it: `\n`
becomes the literal five-character sequence backslash, `s`, backslash,
`s`, newline; `&`, `<`, `>` become their HTML entities; every other
character passes through unchanged (an undefined slot joins as the empty
string). -/
def escapeCharSpec : Option Char → List Char
  | none => []
  | some c =>
    if c = '\n' then ("\\s\\s\n").toList
    else if c = '&' then ("&amp;").toList
    else if c = '<' then ("&lt;").toList
    else if c = '>' then ("&gt;").toList
    else [c]

/-- C6 amended: `getSectionText` maps each character independently through
the table of `escapeCharSpec` — newline to the literal `\s\s` + newline
sequence, `&`/`<`/`>` to entities, all else unchanged — and returns the
concatenation of the images in order. -/
theorem claim6_escaper_amended (text : List (Option Char)) :
    getSectionText text = (text.map escapeCharSpec).flatten := by
  have h : inlineEscapeChar = escapeCharSpec := funext fun c => by
    cases c <;> rfl
  rw [getSectionText, h]

/-- Claim C7: whenever a supplied `customEntityTransform` returns a
defined string for an entity and inner text, `getEntityMarkdown` returns
exactly that string, for every entity — hence regardless of its type,
built-in (LINK, MENTION, IMAGE, EMBEDDED_LINK) or unknown. -/
theorem claim7_custom_entity_transform_wins (entity : Entity) (text : List Char)
    (f : CustomEntityTransform) (s : List Char) (h : f entity text = some s) :
    getEntityMarkdown entity text (some f) = s := by
  simp [getEntityMarkdown, h]

/-- An IMAGE entity, a type with built-in handling, used to witness that
the custom transform still wins over it. -/
def entityC7 : Entity :=
  { type := ("IMAGE").toList, mutability := ("IMMUTABLE").toList,
    data := { url := none, alt := some (("y").toList), src := some (("x.png").toList),
              width := none, height := none } }

/-- A custom entity transform that always returns a defined string. -/
def cetC7 : CustomEntityTransform := fun _ _ => some (("CUSTOM").toList)

/-- Witness for C7 at a concrete IMAGE entity and transform. -/
theorem claim7_witness :
    cetC7 entityC7 (("t").toList) = some (("CUSTOM").toList)
    ∧ getEntityMarkdown entityC7 (("t").toList) (some cetC7) = ("CUSTOM").toList :=
  ⟨rfl, claim7_custom_entity_transform_wins entityC7 (("t").toList) cetC7
    (("CUSTOM").toList) rfl⟩

/-- Claim C8: `sameStyleAsPrevious` is a total boolean function (it can be
passed any record, key list and integer index), and whenever the index is
out of bounds — `index ≤ 0` or `index ≥ inlineStyles.length` — it returns
`false`, forcing a new run.  The JS try/catch arm has no reachable
counterpart here: undefined-slot comparisons are value comparisons that
never throw (see `sameStyleAsPrevious`). -/
theorem claim8_out_of_bounds_false (inlineStyles : InlineStyles)
    (matchKeys : List StyleName) (index : Int)
    (h : index ≤ 0 ∨ (inlineStyles.length : Int) ≤ index) :
    sameStyleAsPrevious inlineStyles matchKeys index = false := by
  have hn : ¬(0 < index ∧ index < (inlineStyles.length : Int)) := by
    rcases h with h | h <;> omega
  unfold sameStyleAsPrevious
  exact if_neg hn

/-- Witness for C8 at a concrete record and the negative index `-1`. -/
theorem claim8_witness :
    ((-1 : Int) ≤ 0 ∨ ((initInlineStyles 2).length : Int) ≤ -1)
    ∧ sameStyleAsPrevious (initInlineStyles 2) INLINE_STYLE_NAMES (-1) = false :=
  ⟨Or.inl (by decide),
   claim8_out_of_bounds_false (initInlineStyles 2) INLINE_STYLE_NAMES (-1)
     (Or.inl (by decide))⟩

/-- Claim C9: a block whose text is non-empty but all whitespace and that
has at least one entity range is atomic — its whole output is the entity
renderer applied to the first entity range's entity with an empty inner
string, so neither `getSections` nor any style rendering contributes. -/
theorem claim9_whitespace_entity_block_atomic (block : Block) (entityMap : EntityMap)
    (hashConfig : HashConfig) (customEntityTransform : Option CustomEntityTransform)
    (config : Config) (r : EntityRange) (rest : List EntityRange)
    (hER : block.entityRanges = r :: rest)
    (_hne : block.text ≠ [])
    (hws : ∀ c ∈ block.text, jsWhitespace c = true) :
    getBlockContentMarkdown block entityMap hashConfig customEntityTransform config =
      getEntityMarkdown (entityMap r.key) [] customEntityTransform := by
  have hdw : block.text.dropWhile jsWhitespace = [] := by
    rw [List.dropWhile_eq_nil_iff]
    intro x hx
    exact hws x hx
  have hAtomic : isAtomicBlock block = true := by
    simp [isAtomicBlock, isEmptyString, jsTrim, hdw, hER]
  simp [getBlockContentMarkdown, hAtomic, hER]

/-- The IMAGE entity of the spec's atomic-block example. -/
def entityC9 : Entity :=
  { type := ("IMAGE").toList, mutability := ("IMMUTABLE").toList,
    data := { url := none, alt := some (("y").toList), src := some (("x.png").toList),
              width := none, height := none } }

/-- A block whose text is the single space `" "` with one entity range. -/
def blockC9 : Block :=
  { key := [], text := (" ").toList, type := ("unstyled").toList, depth := 0,
    entityRanges := [{ offset := 0, length := 1, key := 7 }],
    inlineStyleRanges := [] }

/-- Witness for C9 at the single-space block. -/
theorem claim9_witness :
    blockC9.entityRanges = { offset := 0, length := 1, key := 7 } :: []
    ∧ blockC9.text ≠ []
    ∧ (∀ c ∈ blockC9.text, jsWhitespace c = true)
    ∧ getBlockContentMarkdown blockC9 (fun _ => entityC9) defaultHashConfig
        none defaultConfig =
      getEntityMarkdown ((fun (_ : Nat) => entityC9) 7) [] none :=
  ⟨rfl, by decide, by decide,
   claim9_whitespace_entity_block_atomic blockC9 (fun _ => entityC9)
     defaultHashConfig none defaultConfig { offset := 0, length := 1, key := 7 } []
     rfl (by decide) (by decide)⟩

/-- A prefix is never longer than the string it starts. -/
theorem strStartsWith_length_le (p t : List Char) (h : strStartsWith p t = true) :
    p.length ≤ t.length := by
  induction p generalizing t with
  | nil => simp
  | cons a ps ih =>
    cases t with
    | nil => simp [strStartsWith] at h
    | cons c cs =>
      simp only [strStartsWith, Bool.and_eq_true] at h
      have := ih cs h.2
      simp only [List.length_cons]
      omega

/-- Claim C10: with a non-empty trigger, every iteration of the
`getHashtagRanges` loop either strictly shrinks the working text or
falsifies the loop condition — the loop terminates, and the
`text.length + 1` fuel of `getHashtagRanges` is enough to run it to
completion. -/
theorem claim10_hashtag_step_shrinks (cfg : HashConfig) (s : HashState)
    (htrig : cfg.trigger ≠ [])
    (hcond : hashtagLoopCond s = true) :
    (hashtagStep cfg s).text.length < s.text.length
      ∨ hashtagLoopCond (hashtagStep cfg s) = false := by
  have htl : 0 < cfg.trigger.length := List.length_pos.mpr htrig
  have hst : 0 < s.text.length := by
    simp only [hashtagLoopCond, Bool.and_eq_true, decide_eq_true_eq] at hcond
    exact hcond.1
  by_cases hsw : strStartsWith cfg.trigger s.text
  · left
    simp only [hashtagStep, hsw, if_true]
    simp
    omega
  · simp only [hashtagStep, hsw, if_false]
    by_cases hidx : jsIndexOf (cfg.separator ++ cfg.trigger) s.text ≥ 0
    · left
      simp [hidx]
      omega
    · right
      simp [hidx, hashtagLoopCond]

/-- Concrete loop inputs for the C10 witness. -/
def cfgC10 : HashConfig := { trigger := ("#").toList, separator := (" ").toList }

def stateC10 : HashState :=
  { text := ("#a").toList, counter := 0, startIndex := 0, preSections := [] }

/-- Witness for C10 at a concrete configuration and loop state. -/
theorem claim10_witness :
    cfgC10.trigger ≠ []
    ∧ hashtagLoopCond stateC10 = true
    ∧ ((hashtagStep cfgC10 stateC10).text.length < stateC10.text.length
      ∨ hashtagLoopCond (hashtagStep cfgC10 stateC10) = false) :=
  ⟨by decide, by decide,
   claim10_hashtag_step_shrinks cfgC10 stateC10 (by decide) (by decide)⟩

end DraftMd
